import Mathlib

/-!
Verification development for the BorgorTube playback session manager
(`main.py`).  The Python functions relevant to the specified claims are
shallowly embedded as executable Lean definitions; effectful collaborators
(the extraction backend, the browser-driven credential acquisition, the
player process and its control channel, the file system) are modelled by
passing their observable outcomes and states explicitly.
-/

namespace BorgorTube

/-- One encoded rendition of a video, mirroring the format dictionaries the
extraction backend hands to `available_buckets` and
`watch_separate_streams`: optional height and frame rate (absent keys),
optional codec markers (the backend writes the literal string marker
when a stream kind is missing), and the direct stream URL. -/
structure Variant where
  height : Option Nat
  fps : Option Nat
  acodec : Option String
  vcodec : Option String
  url : String
deriving DecidableEq, Repr

/-- Python truthiness of an optional string (`None` and `""` are falsy). -/
def pyTruthy : Option String → Bool
  | none => false
  | some s => !(s == "")

/-- `FORMAT_MAPPING` from `main.py` as an ordered association list. -/
def FORMAT_MAPPING : List (String × String) :=
  [("2k", "bestvideo[height>=1440]+bestaudio/best"),
   ("1080p60", "bestvideo[height>=1080][fps>=60]+bestaudio/best"),
   ("1080p", "bestvideo[height>=1080]+bestaudio/best"),
   ("720p60", "bestvideo[height>=720][fps>=60]+bestaudio/best"),
   ("720p", "bestvideo[height>=720][height<1080]+bestaudio/best"),
   ("360p", "bestvideo[height>=360][height<720]+bestaudio/best"),
   ("240p", "bestvideo[height>=240][height<360]+bestaudio/best"),
   ("144p", "bestvideo[height>=144][height<240]+bestaudio/best")]

/-- `ALL_QUALITIES = list(FORMAT_MAPPING.keys())`. -/
def ALL_QUALITIES : List String := FORMAT_MAPPING.map Prod.fst

/-- `bucket_avail.add(q)`: Python set insertion, modelled on a duplicate-free
list (membership is all `available_buckets` uses). -/
def addBucket (s : List String) (q : String) : List String :=
  if q ∈ s then s else s ++ [q]

/-- One conditional `if cond: bucket_avail.add(q)` statement. -/
def addIf (c : Prop) [Decidable c] (q : String) (s : List String) : List String :=
  if c then addBucket s q else s

/-- The loop body of `available_buckets` for one format `f`:
`h = f.get("height") or 0; fps = f.get("fps") or 0` followed by the eight
conditional insertions, in source order (innermost first). -/
def variantAdd (s : List String) (f : Variant) : List String :=
  let h := f.height.getD 0
  let fps := f.fps.getD 0
  addIf (h ≥ 144 ∧ h < 240) "144p"
    (addIf (h ≥ 240 ∧ h < 360) "240p"
      (addIf (h ≥ 360 ∧ h < 720) "360p"
        (addIf (h ≥ 720 ∧ h < 1080) "720p"
          (addIf (h ≥ 720 ∧ fps ≥ 60) "720p60"
            (addIf (h ≥ 1080) "1080p"
              (addIf (h ≥ 1080 ∧ fps ≥ 60) "1080p60"
                (addIf (h ≥ 1440) "2k" s)))))))

/-- `available_buckets` from `main.py`: accumulate the set of satisfied
buckets over all formats, filter `ALL_QUALITIES` down to it, and fall back
to `["360p"]` when the filter comes out empty. -/
def available_buckets (formats : List Variant) : List String :=
  let bucket_avail := formats.foldl variantAdd []
  let result := ALL_QUALITIES.filter (fun q => decide (q ∈ bucket_avail))
  if result = [] then ["360p"] else result

/-- Modelled from the spec: the tier membership predicate table of
section 4.1, with unknown height or frame rate treated as 0.  Used to
compare `available_buckets` against the specified tier semantics. -/
def specTierPred (q : String) (f : Variant) : Bool :=
  let h := f.height.getD 0
  let fr := f.fps.getD 0
  if q = "2k" then decide (h ≥ 1440)
  else if q = "1080p60" then decide (h ≥ 1080 ∧ fr ≥ 60)
  else if q = "1080p" then decide (h ≥ 1080)
  else if q = "720p60" then decide (h ≥ 720 ∧ fr ≥ 60)
  else if q = "720p" then decide (720 ≤ h ∧ h < 1080)
  else if q = "360p" then decide (360 ≤ h ∧ h < 720)
  else if q = "240p" then decide (240 ≤ h ∧ h < 360)
  else if q = "144p" then decide (144 ≤ h ∧ h < 240)
  else false

/-- A JSON value as far as `get_current_playback_time` inspects one:
either a JSON number (Python `float(...)` succeeds and yields it) or a
non-numeric value (Python `float(...)` raises, which the surrounding
`try` turns into the 0.0 default). -/
inductive JVal where
  | num (q : ℚ)
  | nonNumeric
deriving DecidableEq, Repr

/-- The observable outcome of the control-channel exchange inside
`get_current_playback_time`: `fail` covers every raised failure up to and
including JSON decoding (connect, send, recv, parse); `obj fields` is the
successfully parsed response object. -/
inductive IpcResponse where
  | fail
  | obj (fields : List (String × JVal))
deriving DecidableEq, Repr

/-- `get_current_playback_time` from `main.py`: on a parsed object with a
`"data"` field return `float(data["data"])`, and on any raised failure or
a missing `"data"` field fall through to `return 0.0`. -/
def get_current_playback_time (resp : IpcResponse) : ℚ :=
  match resp with
  | .fail => 0
  | .obj fields =>
    match fields.lookup "data" with
    | some (.num t) => t
    | some .nonNumeric => 0
    | none => 0

/-- One element of an mpv argument vector, one constructor per distinct
argument `main.py` ever places in `mpv_args` / `video_args` /
`audio_args` (string formatting abstracted into the constructor payload). -/
inductive MpvArg where
  | osc
  | cacheYes
  | demuxerThread
  | msgLevel
  | ytdlFormat (fmt : String)
  | logFile (f : String)
  | ipcServer (p : String)
  | start (t : ℚ)
  | wid (w : Nat)
  | noAudio
  | noVideo
  | target (url : String)
deriving DecidableEq, Repr

/-- `launch_mpv_merged` from `main.py`, returning the argument vector of
the mpv process it starts, or `none` when `current_video_url` is falsy and
no process is launched.  The format filter is
`FORMAT_MAPPING.get(quality_label, "best")`; `--start` is prepended only
when `start_time > 0`, and `--wid` only when not detached.  (Killing the
previous player and recording the new process handle are the caller-visible
state updates modelled at the call sites.) -/
def launch_mpv_merged (current_video_url : Option String) (is_detached : Bool)
    (wid : Nat) (quality_label : String) (start_time : ℚ) :
    Option (List MpvArg) :=
  if !pyTruthy current_video_url then none
  else
    let mpv_format := (FORMAT_MAPPING.lookup quality_label).getD "best"
    let args : List MpvArg :=
      [.osc, .cacheYes, .demuxerThread, .ytdlFormat mpv_format,
       .logFile "mpvlog.txt", .msgLevel, .ipcServer "/tmp/mpvsocket",
       .target (current_video_url.getD "")]
    let args := if start_time > 0 then .start start_time :: args else args
    let args := if !is_detached then .wid wid :: args else args
    some args

/-- `on_quality_changed` from `main.py`: a no-op unless a video URL and a
player process are present; otherwise it queries the playback offset over
the control channel and relaunches merged playback at the newly selected
tier with that offset.  Returns the `(quality_label, start_time)` argument
pair of the `launch_mpv_merged` call together with the launch it produces
(`none` when the handler returns without relaunching). -/
def on_quality_changed (current_video_url : Option String)
    (player_process : Option Unit) (new_q : String) (resp : IpcResponse)
    (is_detached : Bool) (wid : Nat) :
    Option (String × ℚ × Option (List MpvArg)) :=
  if !pyTruthy current_video_url || player_process.isNone then none
  else
    let time_pos := get_current_playback_time resp
    some (new_q, time_pos,
      launch_mpv_merged current_video_url is_detached wid new_q time_pos)

/-- The loop body of the format scan in `watch_separate_streams`: record
the first format whose audio codec marker is the missing-stream sentinel
as the video-only URL, and symmetrically for audio-only, where "not yet
recorded" is Python truthiness of the accumulator (so an empty recorded
URL counts as not recorded). -/
def sepStep (acc : Option String × Option String) (f : Variant) :
    Option String × Option String :=
  (if f.acodec = some "none" ∧ pyTruthy acc.1 = false then some f.url
   else acc.1,
   if f.vcodec = some "none" ∧ pyTruthy acc.2 = false then some f.url
   else acc.2)

/-- The format scan of `watch_separate_streams`: the recorded
`(video_only_url, audio_only_url)` pair after the loop. -/
def findSepUrls (formats : List Variant) : Option String × Option String :=
  formats.foldl sepStep (none, none)

/-- The observable outcome of `watch_separate_streams`: no metadata at all,
the graceful fallback to a merged launch (carrying that launch), or two
player processes with their argument vectors plus the started sync
check. -/
inductive SepOutcome where
  | noInfo
  | fallbackMerged (launch : Option (List MpvArg))
  | separate (videoArgs : List MpvArg) (audioArgs : List MpvArg)
      (syncStarted : Bool)
deriving DecidableEq, Repr

/-- `watch_separate_streams` from `main.py`: scan the current metadata's
formats for a video-only and an audio-only URL; if either is falsy, fall
back to a merged launch at the currently selected tier (default offset 0)
with a console notice; otherwise start one mpv per stream (distinct IPC
paths, `--wid` only on the video process when embedded) and start the
sync timer. -/
def watch_separate_streams (current_info : Option (List Variant))
    (quality : String) (current_video_url : Option String)
    (is_detached : Bool) (wid : Nat) : SepOutcome :=
  match current_info with
  | none => .noInfo
  | some formats =>
    let vo := (findSepUrls formats).1
    let ao := (findSepUrls formats).2
    if pyTruthy vo = false ∨ pyTruthy ao = false then
      .fallbackMerged (launch_mpv_merged current_video_url is_detached wid
        quality 0)
    else
      let video_args : List MpvArg :=
        [.noAudio, .osc, .cacheYes, .demuxerThread,
         .ipcServer "/tmp/mpv_video", .target (vo.getD "")]
      let audio_args : List MpvArg :=
        [.noVideo, .osc, .cacheYes, .demuxerThread,
         .ipcServer "/tmp/mpv_audio", .target (ao.getD "")]
      let video_args := if !is_detached then .wid wid :: video_args
        else video_args
      .separate video_args audio_args true

/-- One browser cookie as handed to `save_cookies_to_file`: the dictionary
keys the function reads, each optional because it is accessed with a
`get` carrying a default. -/
structure Cookie where
  domain : Option String
  path : Option String
  secure : Option Bool
  expires : Option Int
  name : Option String
  value : Option String
deriving DecidableEq, Repr

/-- The include-subdomains flag: `"TRUE" if domain.startswith(".") else
"FALSE"` (a one-character prefix test, embedded as a head-character
test). -/
def cookieFlag (c : Cookie) : String :=
  if (c.domain.getD "").data.head? = some ('.') then "TRUE" else "FALSE"

/-- The secure flag: `"TRUE" if c.get("secure", False) else "FALSE"`. -/
def cookieSecure (c : Cookie) : String :=
  if c.secure.getD false then "TRUE" else "FALSE"

/-- The expiry field: `str(c.get("expires", 0))`. -/
def cookieExpiry (c : Cookie) : String :=
  toString (c.expires.getD 0)

/-- One serialized cookie line: the seven fields joined by tabs (the
Python `"\t".join([...])`). -/
def cookieLine (c : Cookie) : String :=
  (c.domain.getD "") ++ "\t" ++ cookieFlag c ++ "\t" ++ (c.path.getD "/")
    ++ "\t" ++ cookieSecure c ++ "\t" ++ cookieExpiry c ++ "\t"
    ++ (c.name.getD "") ++ "\t" ++ (c.value.getD "")

/-- The `for c in cookies: f.write(...)` loop of `save_cookies_to_file`:
the concatenation of the written records, each a line plus newline. -/
def writeLines : List Cookie → String
  | [] => ""
  | c :: rest => (cookieLine c ++ "\n") ++ writeLines rest

/-- `save_cookies_to_file` from `main.py`: the full text written to the
credential file — the header comment line then one record per cookie. -/
def save_cookies_to_file (cookies : List Cookie) : String :=
  ("# Netscape HTTP Cookie File" ++ "\n") ++ writeLines cookies

/-- Split a character list at every occurrence of the separator `c`
(the segments between separators, in order; no separator yields one
segment). -/
def splitOnChar (c : Char) : List Char → List (List Char)
  | [] => [[]]
  | d :: rest =>
    if d = c then [] :: splitOnChar c rest
    else
      match splitOnChar c rest with
      | [] => [[d]]
      | f :: fs => (d :: f) :: fs

/-- Modelled from the spec: one line of the extraction backend's
credential-file reader (a test double — the reader itself is outside this
repository), following the section 6 layout: comment lines start with
`#`; a data line carries seven tab-separated fields
`domain, flag, path, secure, expiry, name, value`, of which the
`(domain, name, value)` triple is recovered. -/
def parseCookieLine (line : List Char) : Option (String × String × String) :=
  if line.head? = some ('#') then none
  else
    match splitOnChar ('\t') line with
    | [d, _, _, _, _, n, v] => some (⟨d⟩, ⟨n⟩, ⟨v⟩)
    | _ => none

/-- Modelled from the spec: the extraction backend's credential-file
reader (test double), applied line by line to the file content. -/
def parse_cookie_file (content : String) : List (String × String × String) :=
  (splitOnChar ('\n') content.data).filterMap parseCookieLine

/-- A string field that serialization keeps on its own line in its own
column: free of tab and newline characters. -/
abbrev cleanField (s : String) : Prop :=
  ('\t') ∉ s.data ∧ ('\n') ∉ s.data

/-- A cookie whose free-form string fields are clean and whose domain does
not imitate the comment marker. -/
abbrev goodCookie (c : Cookie) : Prop :=
  cleanField (c.domain.getD "") ∧ cleanField (c.path.getD "/")
  ∧ cleanField (c.name.getD "") ∧ cleanField (c.value.getD "")
  ∧ (c.domain.getD "").data.head? ≠ some ('#')

/-- The outcomes of the collaborators `extract_with_fallback` consults, in
the order it consults them: the anonymous `extract_formats` call, the
`os.path.exists("cookies.txt")` check, the headless-browser cookie
acquisition, and the credentialed `extract_formats` call. -/
structure FBEnv where
  anon : Except String String
  cookiesFileExists : Bool
  acquire : Except String (List Cookie)
  withCookies : Except String String
deriving Repr

/-- The observable behaviour of one `extract_with_fallback` run: the value
returned (or the exception propagated to the worker), how many times the
credential acquisition ran, how many credentialed extraction attempts ran,
and the credential-file content persisted by `save_cookies_to_file` (none
when nothing was written). -/
structure FBTrace where
  result : Except String (String × String)
  acquireCalls : Nat
  credExtractCalls : Nat
  savedFile : Option String
deriving Repr

/-- `extract_with_fallback` from `main.py`: try anonymous extraction; on
failure, acquire and persist cookies only when no credential file exists,
then retry extraction once with the credential file; any failure of the
acquisition or of the credentialed attempt propagates. -/
def extract_with_fallback (env : FBEnv) : FBTrace :=
  match env.anon with
  | .ok info => ⟨.ok ("no_cookies", info), 0, 0, none⟩
  | .error _ =>
    if env.cookiesFileExists then
      ⟨env.withCookies.map (fun i => ("cookies", i)), 0, 1, none⟩
    else
      match env.acquire with
      | .error e => ⟨.error e, 1, 0, none⟩
      | .ok cs =>
        ⟨env.withCookies.map (fun i => ("cookies", i)), 1, 1,
          some (save_cookies_to_file cs)⟩

/-- `extract_formats` from `main.py`, with the extraction cache passed
explicitly (it is a module-level dictionary) and the backend call's
outcome supplied as `producer`.  Returns the result, the updated cache,
and how many times the backend ran in this call. -/
def extract_formats (producer : Except String String)
    (key : String × Option String)
    (cache : List ((String × Option String) × String)) :
    Except String String × List ((String × Option String) × String) × Nat :=
  match cache.lookup key with
  | some info => (.ok info, cache, 0)
  | none =>
    match producer with
    | .ok info => (.ok info, cache ++ [(key, info)], 1)
    | .error e => (.error e, cache, 1)

/-- One flat playlist entry as `get_channel_videos` reads it. -/
structure Entry where
  url : Option String
  title : Option String
  thumbnails : List String
deriving DecidableEq, Repr

/-- One result row built by `get_channel_videos`. -/
structure VideoRow where
  title : String
  videoId : String
  thumbnail : String
deriving DecidableEq, Repr

/-- The entry loop of `get_channel_videos`: keep entries with a truthy
`url`, take the last thumbnail URL (empty when there are none), default
the title, and stop once `count` reaches `max_results`. -/
def buildResults (max_results : Nat) : List Entry → Nat → List VideoRow
  | [], _ => []
  | e :: rest, count =>
    if pyTruthy e.url then
      let row : VideoRow :=
        ⟨e.title.getD "Unknown", e.url.getD "", (e.thumbnails.getLast?).getD ""⟩
      if count + 1 ≥ max_results then [row]
      else row :: buildResults max_results rest (count + 1)
    else buildResults max_results rest count

/-- `get_channel_videos` from `main.py`, with the module-level cache
passed explicitly and the backend call's outcome supplied as `fetch` (an
error meaning `extract_info` raised, which the function swallows after
accumulating nothing).  Returns the result, the updated cache, and how
many times the backend ran in this call.  Note the cache write sits
outside the `try`, so it also runs after a failure. -/
def get_channel_videos (fetch : Except String (List Entry))
    (channel_url : String) (max_results : Nat)
    (cache : List ((String × Nat) × List VideoRow)) :
    List VideoRow × List ((String × Nat) × List VideoRow) × Nat :=
  if channel_url = "" then ([], cache, 0)
  else
    match cache.lookup (channel_url, max_results) with
    | some r => (r, cache, 0)
    | none =>
      let results := match fetch with
        | .ok entries => buildResults max_results entries 0
        | .error _ => []
      (results, cache ++ [((channel_url, max_results), results)], 1)

/-- The extraction result dictionary as `on_extraction_done` reads it. -/
structure Metadata where
  original_url : Option String
  webpage_url : Option String
  uploader : Option String
  uploader_url : Option String
  title : Option String
  description : Option String
  formats : List Variant
deriving DecidableEq, Repr

/-- The playback-session fields of the coordinator that
`on_extraction_done` may touch, plus the console transcript. -/
structure Session where
  current_info : Option Metadata
  current_video_url : Option String
  channel_name : Option String
  channel_url : Option String
  channel_avatar_url : Option String
  video_title : Option String
  video_description : Option String
  qualities_available : List String
  quality_combo : List String
  player_process : Option (List MpvArg)
  is_detached : Bool
  wid : Nat
  console : List String
deriving DecidableEq, Repr

/-- `on_extraction_done` from `main.py`: an `Exception` result only logs a
message; a success applies the metadata to the session, repopulates the
quality selector, and launches merged playback at the best available tier
(the avatar scrape's outcome is supplied as `avatar`; a launch that
declines for want of a URL leaves the old player handle in place). -/
def on_extraction_done (st : Session)
    (result : Except String (String × Metadata)) (avatar : Option String) :
    Session :=
  match result with
  | .error e => { st with console := st.console ++ ["Extraction error: " ++ e] }
  | .ok (mode, info) =>
    let url := match info.original_url with
      | some u => some u
      | none => info.webpage_url
    let qs := available_buckets info.formats
    let best := qs.headD "360p"
    { st with
      current_info := some info,
      current_video_url := url,
      channel_name := some (info.uploader.getD "Unknown Channel"),
      channel_url := some (info.uploader_url.getD ""),
      channel_avatar_url := avatar,
      video_title := some (info.title.getD "Untitled"),
      video_description := some (info.description.getD
        "No description available."),
      qualities_available := qs,
      quality_combo := qs,
      player_process := match launch_mpv_merged url st.is_detached st.wid
          best 0 with
        | some args => some args
        | none => st.player_process,
      console := st.console ++
        [if mode = "no_cookies" then "Extraction succeeded without cookies."
         else "Extraction succeeded with cookies fallback.",
         "Available qualities: " ++ String.intercalate ", " qs] }

theorem mem_addBucket {s : List String} {q r : String} :
    r ∈ addBucket s q ↔ r ∈ s ∨ r = q := by
  unfold addBucket
  split
  · next hq =>
    constructor
    · exact Or.inl
    · rintro (hr | rfl)
      · exact hr
      · exact hq
  · simp [List.mem_append]

theorem mem_addIf {c : Prop} [Decidable c] {q r : String} {s : List String} :
    r ∈ addIf c q s ↔ r ∈ s ∨ (c ∧ r = q) := by
  unfold addIf
  split
  · next hc => simp [mem_addBucket, hc]
  · next hc => simp [hc]

theorem mem_variantAdd {s : List String} {f : Variant} {r : String} :
    r ∈ variantAdd s f ↔ r ∈ s ∨ specTierPred r f = true := by
  simp only [variantAdd, mem_addIf, specTierPred]
  split_ifs with h1 h2 h3 h4 h5 h6 h7 h8 <;> simp_all

theorem mem_foldl_variantAdd (formats : List Variant) :
    ∀ (s : List String) (r : String),
      r ∈ formats.foldl variantAdd s ↔
        r ∈ s ∨ ∃ f ∈ formats, specTierPred r f = true := by
  induction formats with
  | nil => intro s r; simp
  | cons f rest ih =>
    intro s r
    rw [List.foldl_cons, ih, mem_variantAdd]
    constructor
    · rintro ((hs | hf) | ⟨g, hg, hgp⟩)
      · exact Or.inl hs
      · exact Or.inr ⟨f, List.mem_cons_self f rest, hf⟩
      · exact Or.inr ⟨g, List.mem_cons_of_mem f hg, hgp⟩
    · rintro (hs | ⟨g, hg, hgp⟩)
      · exact Or.inl (Or.inl hs)
      · rcases List.mem_cons.1 hg with rfl | hg2
        · exact Or.inl (Or.inr hgp)
        · exact Or.inr ⟨g, hg2, hgp⟩

theorem specTierPred_mem_ALL_QUALITIES {r : String} {f : Variant}
    (h : specTierPred r f = true) : r ∈ ALL_QUALITIES := by
  unfold specTierPred at h
  split_ifs at h with h1 h2 h3 h4 h5 h6 h7 h8
  · subst h1; decide
  · subst h2; decide
  · subst h3; decide
  · subst h4; decide
  · subst h5; decide
  · subst h6; decide
  · subst h7; decide
  · subst h8; decide

/-- C1: `available_buckets` returns tiers in the fixed enumeration order
(a sublist of `ALL_QUALITIES`); whenever some variant satisfies some
tier's predicate (per the section 4.1 table, unknown height/frame rate
treated as 0), every returned tier is satisfied by at least one variant;
and when no variant satisfies any tier (including the empty list) the
result is exactly `["360p"]`. -/
theorem available_buckets_ordered_sound (formats : List Variant) :
    (available_buckets formats).Sublist ALL_QUALITIES
    ∧ ((∃ q f, f ∈ formats ∧ specTierPred q f = true) →
        ∀ q ∈ available_buckets formats, ∃ f ∈ formats, specTierPred q f = true)
    ∧ ((∀ q f, f ∈ formats → specTierPred q f = false) →
        available_buckets formats = ["360p"]) := by
  refine ⟨?_, ?_, ?_⟩
  · simp only [available_buckets]
    split
    · decide
    · exact List.filter_sublist _
  · rintro ⟨q, f, hf, hsat⟩ q' hq'
    have hmem : q ∈ ALL_QUALITIES.filter
        (fun q => decide (q ∈ formats.foldl variantAdd [])) := by
      refine List.mem_filter.2 ⟨specTierPred_mem_ALL_QUALITIES hsat, ?_⟩
      have : q ∈ formats.foldl variantAdd [] :=
        (mem_foldl_variantAdd formats [] q).2 (Or.inr ⟨f, hf, hsat⟩)
      exact decide_eq_true this
    have hne : ALL_QUALITIES.filter
        (fun q => decide (q ∈ formats.foldl variantAdd [])) ≠ [] :=
      List.ne_nil_of_mem hmem
    simp only [available_buckets] at hq'
    rw [if_neg hne] at hq'
    have hq'2 := (List.mem_filter.1 hq').2
    have : q' ∈ formats.foldl variantAdd [] := of_decide_eq_true hq'2
    rcases (mem_foldl_variantAdd formats [] q').1 this with h | h
    · exact absurd h (List.not_mem_nil q')
    · exact h
  · intro hnone
    simp only [available_buckets]
    rw [if_pos]
    rw [List.filter_eq_nil_iff]
    intro q _
    simp only [decide_eq_true_eq]
    intro hq
    rcases (mem_foldl_variantAdd formats [] q).1 hq with h | ⟨f, hf, hsat⟩
    · exact absurd h (List.not_mem_nil q)
    · rw [hnone q f hf] at hsat
      exact Bool.false_ne_true hsat

/-- C1 witness: at the singleton 1080p/30fps variant the soundness clause
applies concretely, and on the empty list the fallback clause yields
`["360p"]`. -/
theorem available_buckets_ordered_sound_witness :
    (∀ q ∈ available_buckets [⟨some 1080, some 30, none, none, "u"⟩],
      ∃ f ∈ [(⟨some 1080, some 30, none, none, "u"⟩ : Variant)],
        specTierPred q f = true)
    ∧ available_buckets [] = ["360p"] := by
  constructor
  · exact (available_buckets_ordered_sound _).2.1
      ⟨"1080p", ⟨some 1080, some 30, none, none, "u"⟩, by decide, by decide⟩
  · exact (available_buckets_ordered_sound []).2.2
      (fun q f hf => absurd hf (List.not_mem_nil f))

/-- C4 counterexample: for `[{height:1080,fps:30},{height:720,fps:60}]` the
code does not return `["1080p","720p60"]` — the 720p/60fps variant also
satisfies the 720p bucket predicate 720 ≤ h < 1080. -/
theorem available_buckets_example_counterexample :
    available_buckets
      [⟨some 1080, some 30, none, none, "a"⟩, ⟨some 720, some 60, none, none, "b"⟩]
      ≠ ["1080p", "720p60"] := by decide

/-- C4 amended: for that variant list `available_buckets` returns exactly
`["1080p","720p60","720p"]`. -/
theorem available_buckets_example_amended :
    available_buckets
      [⟨some 1080, some 30, none, none, "a"⟩, ⟨some 720, some 60, none, none, "b"⟩]
      = ["1080p", "720p60", "720p"] := by decide

/-- C6: `get_current_playback_time` returns the numeric `"data"` field of a
well-formed response, and returns 0 (without raising — the function is
total) on connection/parse failure, on a response lacking `"data"`, and on
a non-numeric `"data"` value. -/
theorem get_current_playback_time_spec (resp : IpcResponse) :
    (∀ fields t, resp = .obj fields → fields.lookup "data" = some (.num t) →
        get_current_playback_time resp = t)
    ∧ (resp = .fail → get_current_playback_time resp = 0)
    ∧ (∀ fields, resp = .obj fields → fields.lookup "data" = none →
        get_current_playback_time resp = 0)
    ∧ (∀ fields, resp = .obj fields → fields.lookup "data" = some .nonNumeric →
        get_current_playback_time resp = 0) := by
  refine ⟨?_, ?_, ?_, ?_⟩
  · intro fields t h1 h2
    subst h1
    simp [get_current_playback_time, h2]
  · intro h1
    subst h1
    rfl
  · intro fields h1 h2
    subst h1
    simp [get_current_playback_time, h2]
  · intro fields h1 h2
    subst h1
    simp [get_current_playback_time, h2]

/-- C6 witness: `{"data": 42.5}` yields 42.5; an unreachable channel and a
response without `"data"` both yield 0. -/
theorem get_current_playback_time_spec_witness :
    get_current_playback_time (.obj [("data", .num 42.5)]) = 42.5
    ∧ get_current_playback_time .fail = 0
    ∧ get_current_playback_time (.obj [("other", .num 1)]) = 0 := by
  refine ⟨?_, ?_, ?_⟩
  · exact (get_current_playback_time_spec _).1 _ 42.5 rfl rfl
  · exact (get_current_playback_time_spec _).2.1 rfl
  · exact (get_current_playback_time_spec _).2.2.1 _ rfl rfl

theorem launch_mpv_merged_args (url : Option String) (d : Bool) (w : Nat)
    (q : String) (t : ℚ) (hurl : pyTruthy url = true) :
    ∃ args, launch_mpv_merged url d w q t = some args
      ∧ (∀ t2 : ℚ, MpvArg.start t2 ∈ args ↔ (0 < t ∧ t2 = t))
      ∧ MpvArg.ytdlFormat ((FORMAT_MAPPING.lookup q).getD "best") ∈ args := by
  simp only [launch_mpv_merged, hurl, Bool.not_true, Bool.false_eq_true,
    if_false]
  refine ⟨_, rfl, ?_, ?_⟩
  · intro t2
    by_cases ht : (0 : ℚ) < t <;> by_cases hd : d <;>
      simp [ht, hd, List.mem_cons, and_comm]
  · by_cases ht : (0 : ℚ) < t <;> by_cases hd : d <;>
      simp [ht, hd, List.mem_cons]

/-- C10: when a video URL is present, `launch_mpv_merged` launches with an
argument vector that contains the start-offset argument iff the given
offset is strictly positive (and then only with that offset); a quality
label outside `FORMAT_MAPPING` degrades to the `"best"` format filter; and
a launch at the offset produced by a failed offset query (0) carries no
start-offset argument. -/
theorem launch_mpv_merged_spec (url : Option String) (d : Bool) (w : Nat)
    (q : String) (t : ℚ) (hurl : pyTruthy url = true) :
    (∃ args, launch_mpv_merged url d w q t = some args
      ∧ (MpvArg.start t ∈ args ↔ 0 < t)
      ∧ (∀ t2 : ℚ, MpvArg.start t2 ∈ args → t2 = t)
      ∧ (FORMAT_MAPPING.lookup q = none → MpvArg.ytdlFormat "best" ∈ args))
    ∧ (∀ args2, launch_mpv_merged url d w q (get_current_playback_time .fail)
          = some args2 → ∀ t2 : ℚ, MpvArg.start t2 ∉ args2) := by
  constructor
  · obtain ⟨args, heq, hstart, hfmt⟩ := launch_mpv_merged_args url d w q t hurl
    refine ⟨args, heq, ?_, ?_, ?_⟩
    · rw [hstart t]
      simp
    · intro t2 h2
      exact ((hstart t2).1 h2).2
    · intro hq
      rw [hq] at hfmt
      exact hfmt
  · intro args2 hargs t2
    have h0 : get_current_playback_time .fail = (0 : ℚ) := rfl
    rw [h0] at hargs
    obtain ⟨args, heq, hstart, _⟩ := launch_mpv_merged_args url d w q 0 hurl
    rw [heq, Option.some_inj] at hargs
    subst hargs
    intro hmem
    exact absurd ((hstart t2).1 hmem).1 (lt_irrefl 0)

/-- C10 witness: with a URL present, offset 5 produces a start argument,
offset 0 (the failed-query default) produces none, and the unknown label
"worst" falls back to the unconstrained "best" filter. -/
theorem launch_mpv_merged_spec_witness :
    (∃ args, launch_mpv_merged (some "u") false 3 "worst" 5 = some args
      ∧ (MpvArg.start 5 ∈ args ↔ (0 : ℚ) < 5)
      ∧ (∀ t2 : ℚ, MpvArg.start t2 ∈ args → t2 = 5)
      ∧ (FORMAT_MAPPING.lookup "worst" = none →
          MpvArg.ytdlFormat "best" ∈ args))
    ∧ (∀ args2, launch_mpv_merged (some "u") false 3 "worst"
          (get_current_playback_time .fail) = some args2 →
        ∀ t2 : ℚ, MpvArg.start t2 ∉ args2) :=
  launch_mpv_merged_spec (some "u") false 3 "worst" 5 (by decide)

/-- C5: with an active session (truthy URL and a live player process),
`on_quality_changed` relaunches merged playback at the newly selected tier
with exactly the offset delivered by the control-channel query: the parsed
`"data"` value on success, 0 on query failure. -/
theorem on_quality_changed_preserves_offset (url : Option String)
    (pp : Option Unit) (q : String) (resp : IpcResponse) (d : Bool) (w : Nat)
    (hurl : pyTruthy url = true) (hpp : pp.isSome = true) :
    on_quality_changed url pp q resp d w
      = some (q, get_current_playback_time resp,
          launch_mpv_merged url d w q (get_current_playback_time resp))
    ∧ (∀ fields t, resp = .obj fields → fields.lookup "data" = some (.num t) →
        on_quality_changed url pp q resp d w
          = some (q, t, launch_mpv_merged url d w q t))
    ∧ (resp = .fail →
        on_quality_changed url pp q resp d w
          = some (q, 0, launch_mpv_merged url d w q 0)) := by
  have hne : pp.isNone = false := by
    cases pp
    · simp at hpp
    · rfl
  have hmain : on_quality_changed url pp q resp d w
      = some (q, get_current_playback_time resp,
          launch_mpv_merged url d w q (get_current_playback_time resp)) := by
    simp [on_quality_changed, hurl, hne]
  refine ⟨hmain, ?_, ?_⟩
  · intro fields t h1 h2
    subst h1
    have hg : get_current_playback_time (.obj fields) = t := by
      simp [get_current_playback_time, h2]
    rw [hmain, hg]
  · intro h1
    subst h1
    have hg : get_current_playback_time .fail = (0 : ℚ) := rfl
    rw [hmain, hg]

/-- C5 witness: with a mocked offset query returning 17.3 the relaunch
receives start offset 17.3; with an unreachable channel it receives 0. -/
theorem on_quality_changed_preserves_offset_witness :
    on_quality_changed (some "u") (some ()) "720p"
        (.obj [("data", .num 17.3)]) false 3
      = some ("720p", 17.3,
          launch_mpv_merged (some "u") false 3 "720p" 17.3)
    ∧ on_quality_changed (some "u") (some ()) "720p" .fail false 3
      = some ("720p", 0, launch_mpv_merged (some "u") false 3 "720p" 0) := by
  constructor
  · exact (on_quality_changed_preserves_offset (some "u") (some ()) "720p"
      (.obj [("data", .num 17.3)]) false 3 rfl rfl).2.1 _ 17.3 rfl rfl
  · exact (on_quality_changed_preserves_offset (some "u") (some ()) "720p"
      .fail false 3 rfl rfl).2.2 rfl

theorem pyTruthy_none : pyTruthy none = false := rfl

theorem pyTruthy_some (s : String) : pyTruthy (some s) = !(s == "") := rfl

theorem sepScan_video_truthy (formats : List Variant) :
    ∀ acc : Option String × Option String,
      pyTruthy (formats.foldl sepStep acc).1 = true ↔
        (pyTruthy acc.1 = true
          ∨ ∃ f ∈ formats, f.acodec = some "none" ∧ f.url ≠ "") := by
  induction formats with
  | nil => intro acc; simp
  | cons f rest ih =>
    intro acc
    rw [List.foldl_cons, ih]
    have hstep : pyTruthy (sepStep acc f).1 = true ↔
        (pyTruthy acc.1 = true ∨ (f.acodec = some "none" ∧ f.url ≠ "")) := by
      by_cases h1 : f.acodec = some "none"
      · by_cases h2 : pyTruthy acc.1 = true
        · simp [sepStep, h1, h2]
        · have h2f : pyTruthy acc.1 = false := Bool.not_eq_true _ ▸ h2
          simp [sepStep, h1, h2f, pyTruthy_some]
      · simp [sepStep, h1]
    rw [hstep]
    constructor
    · rintro ((h | hf) | ⟨g, hg, hgp⟩)
      · exact Or.inl h
      · exact Or.inr ⟨f, List.mem_cons_self f rest, hf⟩
      · exact Or.inr ⟨g, List.mem_cons_of_mem f hg, hgp⟩
    · rintro (h | ⟨g, hg, hgp⟩)
      · exact Or.inl (Or.inl h)
      · rcases List.mem_cons.1 hg with rfl | hg2
        · exact Or.inl (Or.inr hgp)
        · exact Or.inr ⟨g, hg2, hgp⟩

theorem sepScan_audio_truthy (formats : List Variant) :
    ∀ acc : Option String × Option String,
      pyTruthy (formats.foldl sepStep acc).2 = true ↔
        (pyTruthy acc.2 = true
          ∨ ∃ f ∈ formats, f.vcodec = some "none" ∧ f.url ≠ "") := by
  induction formats with
  | nil => intro acc; simp
  | cons f rest ih =>
    intro acc
    rw [List.foldl_cons, ih]
    have hstep : pyTruthy (sepStep acc f).2 = true ↔
        (pyTruthy acc.2 = true ∨ (f.vcodec = some "none" ∧ f.url ≠ "")) := by
      by_cases h1 : f.vcodec = some "none"
      · by_cases h2 : pyTruthy acc.2 = true
        · simp [sepStep, h1, h2]
        · have h2f : pyTruthy acc.2 = false := Bool.not_eq_true _ ▸ h2
          simp [sepStep, h1, h2f, pyTruthy_some]
      · simp [sepStep, h1]
    rw [hstep]
    constructor
    · rintro ((h | hf) | ⟨g, hg, hgp⟩)
      · exact Or.inl h
      · exact Or.inr ⟨f, List.mem_cons_self f rest, hf⟩
      · exact Or.inr ⟨g, List.mem_cons_of_mem f hg, hgp⟩
    · rintro (h | ⟨g, hg, hgp⟩)
      · exact Or.inl (Or.inl h)
      · rcases List.mem_cons.1 hg with rfl | hg2
        · exact Or.inl (Or.inr hgp)
        · exact Or.inr ⟨g, hg2, hgp⟩

/-- C7 counterexample: a variant list that does contain a video-only
variant (audio codec marked missing) and an audio-only variant, yet
`watch_separate_streams` performs the merged fallback rather than
launching two processes — the video-only variant's URL is the empty
string, which the scan treats as not found. -/
theorem watch_separate_streams_counterexample :
    (∃ f ∈ [(⟨none, none, some "none", none, ""⟩ : Variant),
            ⟨none, none, none, some "none", "a"⟩], f.acodec = some "none")
    ∧ (∃ f ∈ [(⟨none, none, some "none", none, ""⟩ : Variant),
              ⟨none, none, none, some "none", "a"⟩], f.vcodec = some "none")
    ∧ watch_separate_streams
        (some [⟨none, none, some "none", none, ""⟩,
               ⟨none, none, none, some "none", "a"⟩]) "360p" (some "u") true 0
        = .fallbackMerged (launch_mpv_merged (some "u") true 0 "360p" 0) := by
  decide

/-- C7 amended: with "present" read as "present with a non-empty URL" (the
scan treats an empty recorded URL as absent): whenever the variant list
contains no video-only variant with a non-empty URL or no audio-only
variant with a non-empty URL, `watch_separate_streams` performs a merged
launch at the currently selected tier and signals the fallback condition;
otherwise it launches two player processes with distinct control-channel
paths and starts the periodic synchronization check. -/
theorem watch_separate_streams_amended (formats : List Variant) (q : String)
    (url : Option String) (d : Bool) (w : Nat) :
    ((¬ (∃ f ∈ formats, f.acodec = some "none" ∧ f.url ≠ "")
      ∨ ¬ (∃ f ∈ formats, f.vcodec = some "none" ∧ f.url ≠ "")) →
      watch_separate_streams (some formats) q url d w
        = .fallbackMerged (launch_mpv_merged url d w q 0))
    ∧ ((∃ f ∈ formats, f.acodec = some "none" ∧ f.url ≠ "") →
       (∃ f ∈ formats, f.vcodec = some "none" ∧ f.url ≠ "") →
      ∃ va aa, watch_separate_streams (some formats) q url d w
          = .separate va aa true
        ∧ MpvArg.ipcServer "/tmp/mpv_video" ∈ va
        ∧ MpvArg.ipcServer "/tmp/mpv_audio" ∈ aa
        ∧ (∀ p1 p2, MpvArg.ipcServer p1 ∈ va → MpvArg.ipcServer p2 ∈ aa →
            p1 ≠ p2)) := by
  have hv : pyTruthy (findSepUrls formats).1 = true ↔
      ∃ f ∈ formats, f.acodec = some "none" ∧ f.url ≠ "" := by
    rw [findSepUrls, sepScan_video_truthy]
    simp [pyTruthy]
  have ha : pyTruthy (findSepUrls formats).2 = true ↔
      ∃ f ∈ formats, f.vcodec = some "none" ∧ f.url ≠ "" := by
    rw [findSepUrls, sepScan_audio_truthy]
    simp [pyTruthy]
  constructor
  · intro h
    have hcond : pyTruthy (findSepUrls formats).1 = false
        ∨ pyTruthy (findSepUrls formats).2 = false := by
      rcases h with h | h
      · left
        cases hb : pyTruthy (findSepUrls formats).1
        · rfl
        · exact absurd (hv.1 hb) h
      · right
        cases hb : pyTruthy (findSepUrls formats).2
        · rfl
        · exact absurd (ha.1 hb) h
    simp only [watch_separate_streams]
    rw [if_pos hcond]
  · intro h1 h2
    have hvt := hv.2 h1
    have hat := ha.2 h2
    simp only [watch_separate_streams]
    rw [if_neg (by
      rintro (hc | hc)
      · rw [hvt] at hc
        exact absurd hc (by simp)
      · rw [hat] at hc
        exact absurd hc (by simp))]
    by_cases hd : d
    · rw [if_neg (by simp [hd])]
      refine ⟨_, _, rfl, by simp, by simp, ?_⟩
      intro p1 p2 hp1 hp2
      simp at hp1 hp2
      subst hp1
      subst hp2
      decide
    · rw [if_pos (by simp [hd])]
      refine ⟨_, _, rfl, by simp, by simp, ?_⟩
      intro p1 p2 hp1 hp2
      simp at hp1 hp2
      subst hp1
      subst hp2
      decide

/-- C7 amended witness: the empty variant list triggers the merged
fallback, and a list with both a video-only and an audio-only variant
(non-empty URLs) yields two processes on distinct control channels. -/
theorem watch_separate_streams_amended_witness :
    watch_separate_streams (some []) "360p" (some "u") true 0
      = .fallbackMerged (launch_mpv_merged (some "u") true 0 "360p" 0)
    ∧ ∃ va aa,
        watch_separate_streams
          (some [(⟨none, none, some "none", none, "v"⟩ : Variant),
                 ⟨none, none, none, some "none", "a"⟩]) "720p" (some "u")
          true 5
          = .separate va aa true
        ∧ MpvArg.ipcServer "/tmp/mpv_video" ∈ va
        ∧ MpvArg.ipcServer "/tmp/mpv_audio" ∈ aa
        ∧ (∀ p1 p2, MpvArg.ipcServer p1 ∈ va → MpvArg.ipcServer p2 ∈ aa →
            p1 ≠ p2) := by
  constructor
  · exact (watch_separate_streams_amended [] "360p" (some "u") true 0).1
      (Or.inl (by rintro ⟨f, hf, _⟩; exact absurd hf (List.not_mem_nil f)))
  · exact (watch_separate_streams_amended _ "720p" (some "u") true 5).2
      (by decide) (by decide)

/-- C2: `extract_with_fallback` attempts anonymous extraction first and
returns immediately on success (no acquisition, no credentialed attempt);
on anonymous failure it consults the credential file: if one exists it
acquires nothing and retries extraction exactly once with it, and if none
exists it acquires exactly once, persists the acquired set via
`save_cookies_to_file`, and retries exactly once; acquisition failure or
credentialed-attempt failure surfaces as the error, and no run ever
acquires or retries more than once. -/
theorem extract_with_fallback_protocol (env : FBEnv) :
    (∀ i, env.anon = .ok i →
        extract_with_fallback env = ⟨.ok ("no_cookies", i), 0, 0, none⟩)
    ∧ (∀ e, env.anon = .error e → env.cookiesFileExists = true →
        extract_with_fallback env
          = ⟨env.withCookies.map (fun i => ("cookies", i)), 0, 1, none⟩)
    ∧ (∀ e, env.anon = .error e → env.cookiesFileExists = false →
        (extract_with_fallback env).acquireCalls = 1
        ∧ (∀ cs, env.acquire = .ok cs →
            extract_with_fallback env
              = ⟨env.withCookies.map (fun i => ("cookies", i)), 1, 1,
                  some (save_cookies_to_file cs)⟩)
        ∧ (∀ ae, env.acquire = .error ae →
            extract_with_fallback env = ⟨.error ae, 1, 0, none⟩))
    ∧ (∀ e ce, env.anon = .error e → env.withCookies = .error ce →
        (extract_with_fallback env).result = .error ce
        ∨ ∃ ae, env.acquire = .error ae
            ∧ (extract_with_fallback env).result = .error ae)
    ∧ ((extract_with_fallback env).credExtractCalls ≤ 1
        ∧ (extract_with_fallback env).acquireCalls ≤ 1) := by
  obtain ⟨anon, fe, acq, wc⟩ := env
  refine ⟨?_, ?_, ?_, ?_, ?_⟩ <;>
    cases anon <;> cases fe <;> cases acq <;> cases wc <;>
      simp [extract_with_fallback, Except.map]

/-- C2 witness: success of the anonymous attempt makes zero acquisition
calls; anonymous failure with no credential file makes exactly one;
anonymous failure with an existing file makes zero and retries once. -/
theorem extract_with_fallback_protocol_witness :
    extract_with_fallback ⟨.ok "m", false, .ok [], .ok "m2"⟩
      = ⟨.ok ("no_cookies", "m"), 0, 0, none⟩
    ∧ (extract_with_fallback
        ⟨.error "e", false, .ok [], .ok "m2"⟩).acquireCalls = 1
    ∧ extract_with_fallback ⟨.error "e", true, .ok [], .ok "m2"⟩
      = ⟨.ok ("cookies", "m2"), 0, 1, none⟩ := by
  refine ⟨?_, ?_, ?_⟩
  · exact (extract_with_fallback_protocol
      ⟨.ok "m", false, .ok [], .ok "m2"⟩).1 "m" rfl
  · exact ((extract_with_fallback_protocol
      ⟨.error "e", false, .ok [], .ok "m2"⟩).2.2.1 "e" rfl rfl).1
  · have h := (extract_with_fallback_protocol
      ⟨.error "e", true, .ok [], .ok "m2"⟩).2.1 "e" rfl rfl
    simpa using h

/-- C8: when the extraction worker delivers an error, `on_extraction_done`
leaves every session field at its last-known-good value — metadata, video
URL, channel fields, quality lists, and the player-process handle — and
only appends a user-visible console message. -/
theorem on_extraction_done_error_preserves_state (st : Session) (e : String)
    (avatar : Option String) :
    (on_extraction_done st (.error e) avatar).current_info = st.current_info
    ∧ (on_extraction_done st (.error e) avatar).current_video_url
        = st.current_video_url
    ∧ (on_extraction_done st (.error e) avatar).channel_name = st.channel_name
    ∧ (on_extraction_done st (.error e) avatar).channel_url = st.channel_url
    ∧ (on_extraction_done st (.error e) avatar).channel_avatar_url
        = st.channel_avatar_url
    ∧ (on_extraction_done st (.error e) avatar).video_title = st.video_title
    ∧ (on_extraction_done st (.error e) avatar).video_description
        = st.video_description
    ∧ (on_extraction_done st (.error e) avatar).qualities_available
        = st.qualities_available
    ∧ (on_extraction_done st (.error e) avatar).quality_combo
        = st.quality_combo
    ∧ (on_extraction_done st (.error e) avatar).player_process
        = st.player_process
    ∧ (on_extraction_done st (.error e) avatar).is_detached = st.is_detached
    ∧ (on_extraction_done st (.error e) avatar).wid = st.wid
    ∧ (on_extraction_done st (.error e) avatar).console
        = st.console ++ ["Extraction error: " ++ e] :=
  ⟨rfl, rfl, rfl, rfl, rfl, rfl, rfl, rfl, rfl, rfl, rfl, rfl, rfl⟩

theorem lookup_append_self {α : Type} {β : Type} [BEq α] [LawfulBEq α]
    (l : List (α × β)) (k : α) (v : β) (h : l.lookup k = none) :
    (l ++ [(k, v)]).lookup k = some v := by
  induction l with
  | nil => simp [List.lookup]
  | cons p rest ih =>
    obtain ⟨a, b⟩ := p
    rw [List.cons_append]
    rw [List.lookup_cons] at h ⊢
    cases hab : k == a with
    | false =>
      simp only [hab] at h ⊢
      exact ih h
    | true =>
      simp only [hab] at h
      exact absurd h (by simp)

/-- C3 counterexample: `get_channel_videos` with a failing producer caches
the (empty) result anyway — the second call with the identical key finds
the key cached and does not re-invoke the producer, contradicting "when
the producer fails, no result is cached for that key". -/
theorem channel_cache_failure_cached_counterexample :
    (get_channel_videos (.error "network down") "chan" 20 []).2.2 = 1
    ∧ ((get_channel_videos (.error "network down") "chan" 20 []).2.1).lookup
        ("chan", 20) = some []
    ∧ (get_channel_videos (.error "network down") "chan" 20
        (get_channel_videos (.error "network down") "chan" 20 []).2.1).2.2
        = 0 := by
  decide

/-- C3 amended: on a cache hit neither function re-invokes its producer
(call count 1 after two gets), and `extract_formats` memoizes only
successful results — a failed extraction leaves the cache unchanged and a
subsequent identical call re-invokes the producer — but
`get_channel_videos` stores its result even when the producer fails
(caching the empty list), so a subsequent identical call returns the
cached value without re-invoking the producer. -/
theorem cache_memoization_amended :
    (∀ (key : String × Option String)
        (cache : List ((String × Option String) × String))
        (p : Except String String) (i : String),
        cache.lookup key = some i →
        extract_formats p key cache = (.ok i, cache, 0))
    ∧ (∀ (key : String × Option String)
        (cache : List ((String × Option String) × String)) (i : String),
        cache.lookup key = none →
        (extract_formats (.ok i) key cache).2.2 = 1
        ∧ (extract_formats (.ok i) key
            ((extract_formats (.ok i) key cache).2.1)).2.2 = 0
        ∧ (extract_formats (.ok i) key
            ((extract_formats (.ok i) key cache).2.1)).1 = .ok i)
    ∧ (∀ (key : String × Option String)
        (cache : List ((String × Option String) × String)) (e : String),
        cache.lookup key = none →
        (extract_formats (.error e) key cache).2.1 = cache
        ∧ (extract_formats (.error e) key
            ((extract_formats (.error e) key cache).2.1)).2.2 = 1)
    ∧ (∀ (fetch : Except String (List Entry)) (url : String) (maxr : Nat)
        (cache : List ((String × Nat) × List VideoRow)) (r : List VideoRow),
        url ≠ "" → cache.lookup (url, maxr) = some r →
        get_channel_videos fetch url maxr cache = (r, cache, 0))
    ∧ (∀ (e url : String) (maxr : Nat)
        (cache : List ((String × Nat) × List VideoRow)),
        url ≠ "" → cache.lookup (url, maxr) = none →
        (get_channel_videos (.error e) url maxr cache).2.1
          = cache ++ [((url, maxr), [])]
        ∧ (get_channel_videos (.error e) url maxr
            ((get_channel_videos (.error e) url maxr cache).2.1)).2.2 = 0) := by
  refine ⟨?_, ?_, ?_, ?_, ?_⟩
  · intro key cache p i hhit
    simp [extract_formats, hhit]
  · intro key cache i hmiss
    have h1 : extract_formats (.ok i) key cache
        = (.ok i, cache ++ [(key, i)], 1) := by
      simp [extract_formats, hmiss]
    rw [h1]
    have h2 : (cache ++ [(key, i)]).lookup key = some i :=
      lookup_append_self cache key i hmiss
    simp [extract_formats, h2]
  · intro key cache e hmiss
    have h1 : extract_formats (.error e) key cache = (.error e, cache, 1) := by
      simp [extract_formats, hmiss]
    rw [h1]
    simp [extract_formats, hmiss]
  · intro fetch url maxr cache r hurl hhit
    simp [get_channel_videos, hurl, hhit]
  · intro e url maxr cache hurl hmiss
    have h1 : get_channel_videos (.error e) url maxr cache
        = ([], cache ++ [((url, maxr), [])], 1) := by
      simp [get_channel_videos, hurl, hmiss]
    rw [h1]
    have h2 : (cache ++ [((url, maxr), [])]).lookup (url, maxr) = some [] :=
      lookup_append_self cache (url, maxr) [] hmiss
    simp [get_channel_videos, hurl, h2]

/-- C3 amended witness: a first miss with a successful producer makes one
call and a second identical get makes none; a failing
`get_channel_videos` producer still gets its empty result cached. -/
theorem cache_memoization_amended_witness :
    ((extract_formats (.ok "meta") ("u", none) []).2.2 = 1
      ∧ (extract_formats (.ok "meta") ("u", none)
          ((extract_formats (.ok "meta") ("u", none) []).2.1)).2.2 = 0)
    ∧ (get_channel_videos (.error "boom") "c" 5 []).2.1
        = [] ++ [(("c", 5), [])] := by
  refine ⟨⟨?_, ?_⟩, ?_⟩
  · exact (cache_memoization_amended.2.1 ("u", none) [] "meta" rfl).1
  · exact (cache_memoization_amended.2.1 ("u", none) [] "meta" rfl).2.1
  · exact (cache_memoization_amended.2.2.2.2 "boom" "c" 5 []
      (by decide) rfl).1

theorem tab_data : ("\t" : String).data = ['\t'] := by decide

theorem newline_data : ("\n" : String).data = ['\n'] := by decide

theorem digitChar_clean (n : Nat) :
    Nat.digitChar n ≠ '\t' ∧ Nat.digitChar n ≠ '\n' := by
  rcases Nat.lt_or_ge n 17 with hlt | hge
  · interval_cases n <;> exact ⟨by decide, by decide⟩
  · have h0 : ¬ n = 0 := by omega
    have h1 : ¬ n = 1 := by omega
    have h2 : ¬ n = 2 := by omega
    have h3 : ¬ n = 3 := by omega
    have h4 : ¬ n = 4 := by omega
    have h5 : ¬ n = 5 := by omega
    have h6 : ¬ n = 6 := by omega
    have h7 : ¬ n = 7 := by omega
    have h8 : ¬ n = 8 := by omega
    have h9 : ¬ n = 9 := by omega
    have h10 : ¬ n = 10 := by omega
    have h11 : ¬ n = 11 := by omega
    have h12 : ¬ n = 12 := by omega
    have h13 : ¬ n = 13 := by omega
    have h14 : ¬ n = 14 := by omega
    have h15 : ¬ n = 15 := by omega
    rw [Nat.digitChar, if_neg h0, if_neg h1, if_neg h2, if_neg h3, if_neg h4,
      if_neg h5, if_neg h6, if_neg h7, if_neg h8, if_neg h9, if_neg h10,
      if_neg h11, if_neg h12, if_neg h13, if_neg h14, if_neg h15]
    exact ⟨by decide, by decide⟩

theorem toDigitsCore_clean (b : Nat) :
    ∀ (fuel n : Nat) (acc : List Char),
      (∀ ch ∈ acc, ch ≠ '\t' ∧ ch ≠ '\n') →
      ∀ ch ∈ Nat.toDigitsCore b fuel n acc,
        ch ≠ '\t' ∧ ch ≠ '\n' := by
  intro fuel
  induction fuel with
  | zero =>
    intro n acc hacc
    simpa [Nat.toDigitsCore] using hacc
  | succ fuel ih =>
    intro n acc hacc
    simp only [Nat.toDigitsCore]
    split
    · intro ch hch
      rcases List.mem_cons.1 hch with rfl | hmem
      · exact digitChar_clean _
      · exact hacc ch hmem
    · apply ih
      intro ch hch
      rcases List.mem_cons.1 hch with rfl | hmem
      · exact digitChar_clean _
      · exact hacc ch hmem

theorem natRepr_clean (n : Nat) :
    ∀ ch ∈ (Nat.repr n).data, ch ≠ '\t' ∧ ch ≠ '\n' := by
  intro ch hch
  have hd : (Nat.repr n).data = Nat.toDigitsCore 10 (n + 1) n [] := rfl
  rw [hd] at hch
  exact toDigitsCore_clean 10 (n + 1) n []
    (fun c hc => absurd hc (List.not_mem_nil c)) ch hch

theorem intToString_clean (i : Int) :
    ∀ ch ∈ (toString i).data, ch ≠ '\t' ∧ ch ≠ '\n' := by
  cases i with
  | ofNat m => exact natRepr_clean m
  | negSucc m =>
    intro ch hch
    have hd : (toString (Int.negSucc m)).data
        = '-' :: (Nat.repr (Nat.succ m)).data := by
      have h1 : toString (Int.negSucc m) = "-" ++ Nat.repr (Nat.succ m) := rfl
      have h2 : ("-" : String).data = ['-'] := rfl
      rw [h1, String.data_append, h2, List.singleton_append]
    rw [hd] at hch
    rcases List.mem_cons.1 hch with rfl | hmem
    · exact ⟨by decide, by decide⟩
    · exact natRepr_clean _ ch hmem

theorem cookieExpiry_clean (c : Cookie) : cleanField (cookieExpiry c) :=
  ⟨fun h => (intToString_clean _ _ h).1 rfl,
   fun h => (intToString_clean _ _ h).2 rfl⟩

theorem cookieFlag_cases (c : Cookie) :
    cleanField (cookieFlag c)
    ∧ (cookieFlag c = "TRUE" ∨ cookieFlag c = "FALSE") := by
  unfold cookieFlag
  split
  · exact ⟨by decide, Or.inl rfl⟩
  · exact ⟨by decide, Or.inr rfl⟩

theorem cookieSecure_cases (c : Cookie) :
    cleanField (cookieSecure c)
    ∧ (cookieSecure c = "TRUE" ∨ cookieSecure c = "FALSE") := by
  unfold cookieSecure
  split
  · exact ⟨by decide, Or.inl rfl⟩
  · exact ⟨by decide, Or.inr rfl⟩

theorem splitOnChar_append (c : Char) (xs ys : List Char) (h : c ∉ xs) :
    splitOnChar c (xs ++ c :: ys) = xs :: splitOnChar c ys := by
  induction xs with
  | nil => simp [splitOnChar]
  | cons d rest ih =>
    have hd : ¬ d = c := fun hh => h (List.mem_cons.2 (Or.inl hh.symm))
    have hrest : c ∉ rest := fun hh => h (List.mem_cons_of_mem d hh)
    rw [List.cons_append, splitOnChar, if_neg hd, ih hrest]

theorem splitOnChar_no (c : Char) (xs : List Char) (h : c ∉ xs) :
    splitOnChar c xs = [xs] := by
  induction xs with
  | nil => rfl
  | cons d rest ih =>
    have hd : ¬ d = c := fun hh => h (List.mem_cons.2 (Or.inl hh.symm))
    have hrest : c ∉ rest := fun hh => h (List.mem_cons_of_mem d hh)
    rw [splitOnChar, if_neg hd, ih hrest]

theorem cookieLine_data (c : Cookie) :
    (cookieLine c).data =
      (c.domain.getD "").data ++ '\t' ::
        ((cookieFlag c).data ++ '\t' ::
          ((c.path.getD "/").data ++ '\t' ::
            ((cookieSecure c).data ++ '\t' ::
              ((cookieExpiry c).data ++ '\t' ::
                ((c.name.getD "").data ++ '\t' ::
                  (c.value.getD "").data))))) := by
  simp only [cookieLine, String.data_append, tab_data, List.append_assoc,
    List.singleton_append, List.cons_append, List.nil_append]

theorem splitTab_cookieLine (c : Cookie) (h : goodCookie c) :
    splitOnChar ('\t') (cookieLine c).data =
      [(c.domain.getD "").data, (cookieFlag c).data, (c.path.getD "/").data,
       (cookieSecure c).data, (cookieExpiry c).data, (c.name.getD "").data,
       (c.value.getD "").data] := by
  obtain ⟨hdom, hpath, hname, hval, hhead⟩ := h
  rw [cookieLine_data,
    splitOnChar_append _ _ _ hdom.1,
    splitOnChar_append _ _ _ (cookieFlag_cases c).1.1,
    splitOnChar_append _ _ _ hpath.1,
    splitOnChar_append _ _ _ (cookieSecure_cases c).1.1,
    splitOnChar_append _ _ _ (cookieExpiry_clean c).1,
    splitOnChar_append _ _ _ hname.1,
    splitOnChar_no _ _ hval.1]

theorem cookieLine_no_newline (c : Cookie) (h : goodCookie c) :
    '\n' ∉ (cookieLine c).data := by
  obtain ⟨hdom, hpath, hname, hval, _⟩ := h
  rw [cookieLine_data]
  intro hmem
  simp only [List.mem_append, List.mem_cons] at hmem
  rcases hmem with h1 | h1 | h1 | h1 | h1 | h1 | h1 | h1 | h1 | h1 | h1 | h1 | h1
  · exact hdom.2 h1
  · exact absurd h1 (by decide)
  · exact (cookieFlag_cases c).1.2 h1
  · exact absurd h1 (by decide)
  · exact hpath.2 h1
  · exact absurd h1 (by decide)
  · exact (cookieSecure_cases c).1.2 h1
  · exact absurd h1 (by decide)
  · exact (cookieExpiry_clean c).2 h1
  · exact absurd h1 (by decide)
  · exact hname.2 h1
  · exact absurd h1 (by decide)
  · exact hval.2 h1

theorem cookieLine_head_ne_hash (c : Cookie) (h : goodCookie c) :
    (cookieLine c).data.head? ≠ some ('#') := by
  have hhead := h.2.2.2.2
  rw [cookieLine_data]
  cases hd : (c.domain.getD "").data with
  | nil =>
    simp only [List.nil_append, List.head?_cons]
    decide
  | cons a as =>
    simp only [List.cons_append, List.head?_cons]
    rw [hd] at hhead
    simpa using hhead

theorem parseCookieLine_cookieLine (c : Cookie) (h : goodCookie c) :
    parseCookieLine (cookieLine c).data
      = some (c.domain.getD "", c.name.getD "", c.value.getD "") := by
  rw [parseCookieLine, if_neg (cookieLine_head_ne_hash c h),
    splitTab_cookieLine c h]

theorem save_cookies_data (cookies : List Cookie) :
    (save_cookies_to_file cookies).data =
      ("# Netscape HTTP Cookie File" : String).data ++ '\n' ::
        (writeLines cookies).data := by
  simp only [save_cookies_to_file, String.data_append, newline_data,
    List.append_assoc, List.singleton_append]

theorem writeLines_split (cookies : List Cookie)
    (h : ∀ c ∈ cookies, goodCookie c) :
    splitOnChar ('\n') (writeLines cookies).data
      = cookies.map (fun c => (cookieLine c).data) ++ [[]] := by
  induction cookies with
  | nil => rfl
  | cons c rest ih =>
    have hc := h c (List.mem_cons_self c rest)
    have hrest : ∀ x ∈ rest, goodCookie x :=
      fun x hx => h x (List.mem_cons_of_mem c hx)
    have hdata : (writeLines (c :: rest)).data
        = (cookieLine c).data ++ '\n' :: (writeLines rest).data := by
      simp only [writeLines, String.data_append, newline_data,
        List.append_assoc, List.singleton_append]
    rw [hdata, splitOnChar_append _ _ _ (cookieLine_no_newline c hc),
      ih hrest, List.map_cons, List.cons_append]

/-- C9 amended: for CredentialSets whose string fields are free of tab and
newline characters and whose domain does not begin with the comment
marker, serialization writes the header comment line followed by one line
per entry splitting into exactly the seven tab-separated fields (flags as
literal TRUE/FALSE, expiry as the decimal integer rendering, "0" when
absent), and re-parsing the written file recovers the domain/name/value
triples. -/
theorem save_cookies_spec (cookies : List Cookie)
    (h : ∀ c ∈ cookies, goodCookie c) :
    splitOnChar ('\n') (save_cookies_to_file cookies).data
      = ("# Netscape HTTP Cookie File" : String).data
          :: (cookies.map (fun c => (cookieLine c).data) ++ [[]])
    ∧ (∀ c ∈ cookies, splitOnChar ('\t') (cookieLine c).data
        = [(c.domain.getD "").data, (cookieFlag c).data,
           (c.path.getD "/").data, (cookieSecure c).data,
           (cookieExpiry c).data, (c.name.getD "").data,
           (c.value.getD "").data])
    ∧ (∀ c : Cookie, cookieFlag c = "TRUE" ∨ cookieFlag c = "FALSE")
    ∧ (∀ c : Cookie, cookieSecure c = "TRUE" ∨ cookieSecure c = "FALSE")
    ∧ (∀ c : Cookie, cookieExpiry c = toString (c.expires.getD 0))
    ∧ (∀ c : Cookie, c.expires = none → cookieExpiry c = "0")
    ∧ parse_cookie_file (save_cookies_to_file cookies)
        = cookies.map
            (fun c => (c.domain.getD "", c.name.getD "", c.value.getD "")) := by
  have hheader : '\n' ∉ ("# Netscape HTTP Cookie File" : String).data
      := by decide
  have hsplit : splitOnChar ('\n') (save_cookies_to_file cookies).data
      = ("# Netscape HTTP Cookie File" : String).data
          :: (cookies.map (fun c => (cookieLine c).data) ++ [[]]) := by
    rw [save_cookies_data, splitOnChar_append _ _ _ hheader,
      writeLines_split cookies h]
  refine ⟨hsplit, ?_, ?_, ?_, ?_, ?_, ?_⟩
  · exact fun c hc => splitTab_cookieLine c (h c hc)
  · exact fun c => (cookieFlag_cases c).2
  · exact fun c => (cookieSecure_cases c).2
  · exact fun c => rfl
  · intro c he
    rw [cookieExpiry, he]
    rfl
  · rw [parse_cookie_file, hsplit]
    have hhdr : parseCookieLine ("# Netscape HTTP Cookie File" : String).data
        = none := by decide
    rw [List.filterMap_cons_none hhdr]
    clear hsplit
    induction cookies with
    | nil => rfl
    | cons c rest ih =>
      have hc := h c (List.mem_cons_self c rest)
      have hrest : ∀ x ∈ rest, goodCookie x :=
        fun x hx => h x (List.mem_cons_of_mem c hx)
      rw [List.map_cons, List.cons_append,
        List.filterMap_cons_some (parseCookieLine_cookieLine c hc),
        ih hrest, List.map_cons]

/-- C9 amended witness: a concrete clean cookie round-trips: its file
parses back to exactly its domain/name/value triple. -/
theorem save_cookies_spec_witness :
    parse_cookie_file (save_cookies_to_file
        [⟨some ".example.com", some "/", some true, some 123, some "sid",
          some "abc"⟩])
      = [(".example.com", "sid", "abc")]
    ∧ (∀ c : Cookie, cookieFlag c = "TRUE" ∨ cookieFlag c = "FALSE") := by
  constructor
  · exact (save_cookies_spec
      [⟨some ".example.com", some "/", some true, some 123, some "sid",
        some "abc"⟩] (by decide)).2.2.2.2.2.2
  · exact (save_cookies_spec [] (fun c hc =>
      absurd hc (List.not_mem_nil c))).2.2.1

/-- C9 counterexample: a cookie whose value contains a tab character is
not written as a seven-field line (the line splits into eight fields), and
re-parsing the written file does not recover its domain/name/value
triple. -/
theorem save_cookies_tab_counterexample :
    (splitOnChar ('\t')
        (cookieLine ⟨some "d", some "/", some false, some 0, some "n",
          some "x\ty"⟩).data).length ≠ 7
    ∧ parse_cookie_file (save_cookies_to_file
        [⟨some "d", some "/", some false, some 0, some "n", some "x\ty"⟩])
      ≠ [("d", "n", "x\ty")] := by
  decide

end BorgorTube
